import Mathlib

/-!
Shallow embedding of the Centreon n8n node
(src/nodes/Centreon/Centreon.node.ts) together with proofs about its
helper functions, its dispatch loop, its bulk apply-configuration loop,
its paginated options loader and its identifier codec.

Platform functions (the JavaScript `Date` parser/formatter and the
network transport) are modelled as explicit function parameters; their
documented behaviour at the concrete inputs a theorem needs is taken as
a hypothesis and discharged on concrete instances in the witnesses.
-/

namespace CentreonNode

/-- Opaque carrier for an API response body (the code treats response
bodies as opaque JSON values and never inspects them in the paths
modelled here). -/
structure Payload where
  raw : String
deriving DecidableEq, Repr

/-- The error classes thrown by the node: `NodeOperationError`
(validation / unknown operation / missing token), `NodeApiError`
(wrapped transport failure), and a plain JavaScript runtime error
(e.g. the `RangeError` thrown by `Date.prototype.toISOString` on an
invalid date). -/
inductive CentreonError where
  | nodeOperationError (msg : String)
  | nodeApiError (msg : String)
  | jsError (msg : String)
deriving DecidableEq, Repr

/-- The `error.message` accessor as read in the catch blocks of `execute` and of the
bulk apply-configuration loop. -/
def CentreonError.message : CentreonError → String
  | .nodeOperationError m => m
  | .nodeApiError m => m
  | .jsError m => m

/-! ## Macro formatting (`formatMacros`, lines 41-48) -/

/-- A user-supplied macro entry, as gathered from the node UI. -/
structure MacroItem where
  name : String
  value : String
  isPassword : Bool
  description : String
deriving DecidableEq, Repr

/-- The wire shape of a macro entry sent to the Centreon API. -/
structure WireMacro where
  name : String
  value : String
  is_password : Bool
  description : String
deriving DecidableEq, Repr

/-- Embedding of `formatMacros` (lines 41-48): a 1:1 `map` renaming
`isPassword` to `is_password` and copying the other fields. -/
def formatMacros (macroItems : List MacroItem) : List WireMacro :=
  macroItems.map (fun m =>
    { name := m.name
      value := m.value
      is_password := m.isPassword
      description := m.description })

/-! ## Date handling (`toIsoUtc`, `validateDateRange`, lines 36-54) -/

/-- JavaScript `>=` on two `Date` values: comparison of the underlying
timestamps, where an unparseable date (`NaN` timestamp, modelled as
`none`) makes every comparison false. -/
def jsGE (a b : Option Int) : Bool :=
  match a, b with
  | some x, some y => decide (y ≤ x)
  | _, _ => false

/-- Embedding of `validateDateRange` (lines 50-54). `parse` models the
platform `new Date(string)` parser (`none` = Invalid Date). -/
def validateDateRange (parse : String → Option Int) (startTime endTime : String) :
    Except CentreonError Unit :=
  if jsGE (parse startTime) (parse endTime) then
    .error (.nodeOperationError ("Start time must be before end time"))
  else
    .ok ()

/-- JavaScript `String.prototype.replace(' ', 'T')`: replaces only the
first occurrence of a space. -/
def replaceFirstSpace : List Char → List Char
  | [] => []
  | c :: cs => if c = ' ' then 'T' :: cs else c :: replaceFirstSpace cs

/-- The `datetime.replace(' ', 'T')` step at the `String` level. -/
def spaceToT (s : String) : String :=
  String.mk (replaceFirstSpace s.data)

/-- The string handed to `new Date(...)` inside `toIsoUtc` (line 37):
the input with its first space replaced by `T` and a `Z` appended. -/
def utcCandidate (s : String) : String :=
  spaceToT s ++ "Z"

/-- Decimal-digit test used by the millisecond-stripping regex model. -/
def isDigitChar (c : Char) : Bool :=
  decide ('0' ≤ c) && decide (c ≤ '9')

/-- Embedding of `.replace(/\.\d\x7b3\x7dZ$/, 'Z')` (line 38): if the
string ends in a dot, three digits and `Z`, drop the dot and digits;
otherwise return it unchanged. -/
def stripMillis (s : String) : String :=
  match s.data.reverse with
  | 'Z' :: c3 :: c2 :: c1 :: '.' :: rest =>
    if isDigitChar c1 && isDigitChar c2 && isDigitChar c3 then
      String.mk (('Z' :: rest).reverse)
    else s
  | _ => s

/-- The canonical `toISOString` output for a whole-second instant whose
second-precision ISO form is `s` (i.e. `s` with `.000` inserted before
the final `Z`). Used to state the `Date` round-trip contract. -/
def withMillis (s : String) : String :=
  String.mk s.data.dropLast ++ ".000Z"

/-- Embedding of `toIsoUtc` (lines 36-39). `parse` models
`new Date(string).getTime()` (`none` = Invalid Date) and `format`
models `Date.prototype.toISOString`; calling `toISOString` on an
invalid date throws a `RangeError`, modelled as the untyped `jsError`. -/
def toIsoUtc (parse : String → Option Int) (format : Int → String)
    (datetime : String) : Except CentreonError String :=
  match parse (utcCandidate datetime) with
  | none => .error (.jsError ("Invalid time value"))
  | some t => .ok (stripMillis (format t))

/-- Shape test for a `YYYY-MM-DD hh:mm:ss` string: 19 characters, with
digits, dashes, one space and colons in the expected positions. -/
def shapeOk (cs : List Char) : Bool :=
  match cs with
  | [y1, y2, y3, y4, d1, m1, m2, d2, a1, a2, sp, h1, h2, c1, i1, i2, c2, s1, s2] =>
    isDigitChar y1 && isDigitChar y2 && isDigitChar y3 && isDigitChar y4 &&
    (d1 = '-') && isDigitChar m1 && isDigitChar m2 &&
    (d2 = '-') && isDigitChar a1 && isDigitChar a2 &&
    (sp = ' ') && isDigitChar h1 && isDigitChar h2 &&
    (c1 = ':') && isDigitChar i1 && isDigitChar i2 &&
    (c2 = ':') && isDigitChar s1 && isDigitChar s2
  | _ => false

/-- Whether a string ends with the UTC designator `Z`. -/
def endsWithZ (s : String) : Bool :=
  match s.data.reverse with
  | 'Z' :: _ => true
  | _ => false

/-! ## Request descriptors and the host downtime handler
(`executeHostDowntime`, lines 1036-1078) -/

/-- The JSON body of a request, restricted to the shapes built by the
handlers modelled here. -/
inductive ReqBody where
  | emptyObj
  | downtimeBody (comment start_time end_time : String) (is_fixed : Bool)
      (duration : Int) (with_services : Bool)
deriving DecidableEq, Repr

/-- A request descriptor as handed to `centreonRequest` (method,
endpoint path, body). -/
structure RequestRec where
  method : String
  endpoint : String
  body : ReqBody
deriving DecidableEq, Repr

/-- The item-scoped parameters read by `executeHostDowntime`. -/
structure DowntimeParams where
  hostId : Int
  comment : String
  fixed : Bool
  duration : Int
  withservices : Bool
  startTime : String
  endTime : String

/-- Embedding of `executeHostDowntime` (lines 1036-1078). Returns the
handler outcome together with the list of remote calls actually issued
(`net` models the transport behind `centreonRequest`; its failures are
wrapped as API errors). The date-range validation runs first; when it
throws, no request is issued. -/
def executeHostDowntime (parse : String → Option Int) (format : Int → String)
    (net : RequestRec → Except String Payload) (p : DowntimeParams) :
    Except CentreonError Payload × List RequestRec :=
  match validateDateRange parse p.startTime p.endTime with
  | .error e => (.error e, [])
  | .ok _ =>
    match toIsoUtc parse format p.startTime with
    | .error e => (.error e, [])
    | .ok startTime =>
      match toIsoUtc parse format p.endTime with
      | .error e => (.error e, [])
      | .ok endTime =>
        let req : RequestRec :=
          { method := "POST"
            endpoint := "/monitoring/hosts/" ++ toString p.hostId ++ "/downtimes"
            body := .downtimeBody p.comment startTime endTime p.fixed p.duration
              p.withservices }
        match net req with
        | .ok r => (.ok r, [req])
        | .error m => (.error (.nodeApiError m), [req])

/-! ## Bulk apply configuration
(`executeMonitoringServerApplyConfiguration`, lines 1286-1337) -/

/-- A per-target outcome record pushed by the bulk loop:
`\x7bmonitoring_server_id, status: success, result\x7d` or
`\x7bmonitoring_server_id, status: error, error\x7d`. -/
inductive TargetResult where
  | success (monitoring_server_id : Int) (result : Payload)
  | failure (monitoring_server_id : Int) (error : String)
deriving DecidableEq, Repr

/-- The `for (const monitoringServerId of monitoringServerIds)` loop of
lines 1301-1334. `cof` is the value of `this.continueOnFail()` tested at
line 1330; `net id` models the `generate-and-reload` call for one
target. Returns the outcome together with the list of targets actually
called. On a failure the error record is pushed, and when `cof` is
false the original error is rethrown, discarding the partial results. -/
def msApplyLoop (cof : Bool) (net : Int → Except String Payload) :
    List Int → Except CentreonError (List TargetResult) × List Int
  | [] => (.ok [], [])
  | id :: rest =>
    match net id with
    | .ok r =>
      let next := msApplyLoop cof net rest
      (next.1.map (fun l => .success id r :: l), id :: next.2)
    | .error m =>
      if cof then
        let next := msApplyLoop cof net rest
        (next.1.map (fun l => .failure id m :: l), id :: next.2)
      else
        (.error (.nodeApiError m), [id])

/-- Embedding of `executeMonitoringServerApplyConfiguration`
(lines 1286-1337). `outerContinueOnFail` is the value returned by the
execution context's `this.continueOnFail()` — the node's batch-level
continue-on-fail setting. `innerContinueOnFail` is the value of the
node parameter named `continueOnFail` declared at lines 777-789
("Whether to continue processing other monitoring servers if one
fails"); the handler body never reads this parameter, so it appears
here as an argument the definition ignores, exactly as in the source. -/
def executeMonitoringServerApplyConfiguration
    (outerContinueOnFail _innerContinueOnFail : Bool)
    (net : Int → Except String Payload) (monitoringServerIds : List Int) :
    Except CentreonError (List TargetResult) × List Int :=
  if monitoringServerIds.isEmpty then
    (.error (.nodeOperationError ("At least one monitoring server must be selected")), [])
  else
    msApplyLoop outerContinueOnFail net monitoringServerIds

/-! ## Dispatch (`executeHostOperation` / `executeServiceOperation` /
`executeMonitoringServerOperation`, lines 834-901, and the per-item
loop of `Centreon.execute`, lines 793-830) -/

instance {ε α : Type} [DecidableEq ε] [DecidableEq α] : DecidableEq (Except ε α)
  | .ok a, .ok b =>
    if h : a = b then .isTrue (by rw [h]) else .isFalse (by simp [h])
  | .ok _, .error _ => .isFalse (by simp)
  | .error _, .ok _ => .isFalse (by simp)
  | .error a, .error b =>
    if h : a = b then .isTrue (by rw [h]) else .isFalse (by simp [h])

/-- The outcome of each concrete handler for one input item, gathered
behind one record: a handler reads the item's parameters, issues its
remote call(s) and either returns a payload or throws. The dispatch
switches select among these fields exactly as the source switches
select among the handler functions. -/
structure Handlers where
  hostList : Except CentreonError Payload
  hostAdd : Except CentreonError Payload
  hostDelete : Except CentreonError Payload
  hostAck : Except CentreonError Payload
  hostDowntime : Except CentreonError Payload
  serviceList : Except CentreonError Payload
  serviceAdd : Except CentreonError Payload
  serviceDelete : Except CentreonError Payload
  serviceAck : Except CentreonError Payload
  serviceDowntime : Except CentreonError Payload
  monitoringServerList : Except CentreonError Payload
  monitoringServerApply : Except CentreonError Payload
deriving DecidableEq, Repr

/-- Embedding of `executeHostOperation` (lines 834-857): the `switch`
over the operation string, with `NodeOperationError` naming the
operation in the default arm. -/
def executeHostOperation (h : Handlers) (operation : String) :
    Except CentreonError Payload :=
  if operation = "list" then h.hostList
  else if operation = "add" then h.hostAdd
  else if operation = "delete" then h.hostDelete
  else if operation = "ack" then h.hostAck
  else if operation = "downtime" then h.hostDowntime
  else .error (.nodeOperationError ("Unknown operation: " ++ operation))

/-- Embedding of `executeServiceOperation` (lines 859-882). -/
def executeServiceOperation (h : Handlers) (operation : String) :
    Except CentreonError Payload :=
  if operation = "list" then h.serviceList
  else if operation = "add" then h.serviceAdd
  else if operation = "delete" then h.serviceDelete
  else if operation = "ack" then h.serviceAck
  else if operation = "downtime" then h.serviceDowntime
  else .error (.nodeOperationError ("Unknown operation: " ++ operation))

/-- Embedding of `executeMonitoringServerOperation` (lines 884-901). -/
def executeMonitoringServerOperation (h : Handlers) (operation : String) :
    Except CentreonError Payload :=
  if operation = "list" then h.monitoringServerList
  else if operation = "applyConfiguration" then h.monitoringServerApply
  else .error (.nodeOperationError ("Unknown operation: " ++ operation))

/-- The resource branch of `Centreon.execute` (lines 808-814): for the
three known resources the matching dispatch runs and its payload is
recorded; for any other resource `responseData` stays `undefined`
(modelled as `none`) and no error is raised. -/
def dispatchResource (h : Handlers) (resource operation : String) :
    Except CentreonError (Option Payload) :=
  if resource = "host" then (executeHostOperation h operation).map some
  else if resource = "service" then (executeServiceOperation h operation).map some
  else if resource = "monitoringServer" then
    (executeMonitoringServerOperation h operation).map some
  else .ok none

/-- One entry of `returnData`: either a success payload or the
`\x7b error: error.message \x7d` record pushed under continue-on-fail. -/
inductive ItemResult where
  | success (data : Payload)
  | errorRecord (message : String)
deriving DecidableEq, Repr

/-- Embedding of the per-item loop of `Centreon.execute`
(lines 799-829). `cof` is `this.continueOnFail()`; `run i` is the
handler-outcome record for item `i`; each item contributes its
resource/operation selector pair. A defined (non-`undefined`) payload
is pushed; a handler failure is recorded and skipped when `cof` is set,
and otherwise rethrown, aborting the remaining items. -/
def executeItems (cof : Bool) (run : Nat → Handlers) :
    List (String × String) → Nat → Except CentreonError (List ItemResult)
  | [], _ => .ok []
  | (resource, operation) :: rest, i =>
    match dispatchResource (run i) resource operation with
    | .ok (some d) =>
      match executeItems cof run rest (i + 1) with
      | .ok l => .ok (.success d :: l)
      | .error e => .error e
    | .ok none => executeItems cof run rest (i + 1)
    | .error e =>
      if cof then
        match executeItems cof run rest (i + 1) with
        | .ok l => .ok (.errorRecord e.message :: l)
        | .error e2 => .error e2
      else .error e

/-! ## Paginated options loader (`fetchFromCentreon`, lines 1340-1403) -/

/-- Pagination metadata as read from `resp.meta.pagination`. -/
structure PaginationMeta where
  total : Nat
  page : Nat
  limit : Nat
deriving DecidableEq, Repr

/-- One record of a listing response (`\x7bid, name\x7d`). -/
structure ListingRecord where
  id : Nat
  name : String
deriving DecidableEq, Repr

/-- One page response: the `result` array plus optional pagination
metadata. -/
structure PageResponse where
  result : List ListingRecord
  meta : Option PaginationMeta
deriving DecidableEq, Repr

/-- The `while (true)` fetch loop of `fetchFromCentreon`
(lines 1374-1397), instrumented with a fetch counter and run on an
explicit fuel bound (`none` = fuel exhausted before the loop stopped).
`server page` models the GET with `\x7bpage, limit\x7d` query
parameters. Each iteration appends `resp.result`, then stops when the
metadata is absent or `meta.page * meta.limit >= meta.total`, and
otherwise increments the page counter. -/
def fetchLoop (server : Nat → PageResponse) :
    Nat → Nat → List ListingRecord → Nat → Option (List ListingRecord × Nat)
  | 0, _, _, _ => none
  | fuel + 1, page, acc, fetches =>
    let resp := server page
    let acc2 := acc ++ resp.result
    let fetches2 := fetches + 1
    match resp.meta with
    | none => some (acc2, fetches2)
    | some m =>
      if m.total ≤ m.page * m.limit then some (acc2, fetches2)
      else fetchLoop server fuel (page + 1) acc2 fetches2

/-- A `\x7bname, value\x7d` option pair returned to the UI. -/
structure OptionPair where
  name : String
  value : Nat
deriving DecidableEq, Repr

/-- Embedding of `fetchFromCentreon` (lines 1340-1403), from the start
of its fetch loop (authentication already done): run the loop from
`page = 1` with an empty accumulator, then map every accumulated item
to a `\x7bname, value\x7d` pair. The second component counts the
fetches performed. -/
def fetchFromCentreon (server : Nat → PageResponse) (fuel : Nat) :
    Option (List OptionPair × Nat) :=
  (fetchLoop server fuel 1 [] 0).map
    (fun r => (r.1.map (fun item => { name := item.name, value := item.id }), r.2))

/-- Ceiling division on naturals, for stating the fetch-count bound. -/
def ceilDiv (a b : Nat) : Nat := (a + b - 1) / b

/-! ## Identifier codec (`getServices` line 144 /
`executeServiceDelete` lines 1166-1167)

The encoder is `JSON.stringify(\x7b hostId, serviceId \x7d)`; the
decoder is `JSON.parse` followed by destructuring of the two fields.
Integers are rendered in decimal, as `JSON.stringify` renders them. -/

/-- The decimal digit character for `n < 10`. -/
def digitChar (n : Nat) : Char := Char.ofNat (48 + n)

/-- Little-endian decimal digits of a natural number. -/
def natCharsRev (n : Nat) : List Char :=
  if h : n < 10 then [digitChar n]
  else digitChar (n % 10) :: natCharsRev (n / 10)
decreasing_by exact Nat.div_lt_self (by omega) (by omega)

/-- Decimal rendering of a natural number, most significant digit
first. -/
def natChars (n : Nat) : List Char := (natCharsRev n).reverse

/-- Decimal rendering of an integer, as `JSON.stringify` renders it. -/
def intChars (i : Int) : List Char :=
  if i < 0 then '-' :: natChars i.natAbs else natChars i.natAbs

/-- Embedding of the encoder used by the `getServices` options loader
(line 144): `JSON.stringify(\x7b hostId, serviceId \x7d)`, whose output
is `\x7b"hostId":H,"serviceId":S\x7d`. -/
def encodeServiceValue (hostId serviceId : Int) : String :=
  String.mk (("\x7b\"hostId\":").data ++ intChars hostId ++
    (",\"serviceId\":").data ++ intChars serviceId ++ ("\x7d").data)

/-- Numeric value of a decimal digit character. -/
def digitVal (c : Char) : Nat := c.toNat - 48

/-- Value of a big-endian decimal digit string. -/
def parseNatChars (cs : List Char) : Nat :=
  cs.foldl (fun acc c => acc * 10 + digitVal c) 0

/-- Value of an optionally `-`-signed decimal digit string. -/
def parseIntChars : List Char → Int
  | '-' :: rest => -(parseNatChars rest : Int)
  | cs => (parseNatChars cs : Int)

/-- Embedding of the decoder used by the service-targeting operations
(`JSON.parse(serviceJson)` followed by destructuring into
`\x7b hostId, serviceId \x7d`, lines 1166-1167): a parser for the JSON
object shape `\x7b"hostId":H,"serviceId":S\x7d` emitted by the encoder,
modelling `JSON.parse` restricted to that shape (`none` = parse
failure). -/
def decodeServiceValue (s : String) : Option (Int × Int) :=
  let cs := s.data
  if cs.take 10 = ("\x7b\"hostId\":").data then
    let rest1 := cs.drop 10
    let hostChars := rest1.takeWhile (fun c => c ≠ ',')
    let rest2 := rest1.drop hostChars.length
    if rest2.take 13 = (",\"serviceId\":").data then
      let rest3 := rest2.drop 13
      let serviceChars := rest3.takeWhile (fun c => c ≠ '\x7d')
      let rest4 := rest3.drop serviceChars.length
      if rest4 = ("\x7d").data then
        some (parseIntChars hostChars, parseIntChars serviceChars)
      else none
    else none
  else none

/-! ## Theorems -/

/-- C7: the macro transformation maps every macro-entry list 1:1 to the
wire shape, renaming only `isPassword` to `is_password` and copying
`name`, `value` and `description` unchanged, preserving list length and
order, with no deduplication of names (each position maps
independently). -/
theorem formatMacros_one_to_one (ms : List MacroItem) :
    (formatMacros ms).length = ms.length ∧
    ∀ (i : Nat) (m : MacroItem), ms[i]? = some m →
      (formatMacros ms)[i]? = some
        ({ name := m.name
           value := m.value
           is_password := m.isPassword
           description := m.description } : WireMacro) := by
  constructor
  · simp [formatMacros]
  · intro i m hm
    simp [formatMacros, hm]

/-- The spec's example macro entry. -/
def macroA : MacroItem :=
  { name := "A", value := "v", isPassword := true, description := "" }

/-- C7 witness: the spec's example entry, duplicated, maps to the wire
shape position by position with the duplicate preserved. -/
theorem formatMacros_one_to_one_witness :
    (formatMacros [macroA, macroA]).length = 2 ∧
    (formatMacros [macroA, macroA])[1]? = some
      { name := "A", value := "v", is_password := true, description := "" } :=
  ⟨(formatMacros_one_to_one [macroA, macroA]).1,
   (formatMacros_one_to_one [macroA, macroA]).2 1 macroA rfl⟩

/-- Every error the bulk loop itself propagates is a wrapped transport
error, never a `NodeOperationError`. -/
theorem msApplyLoop_error_api (cof : Bool) (net : Int → Except String Payload) :
    ∀ ids e, (msApplyLoop cof net ids).1 = .error e → ∃ m, e = .nodeApiError m := by
  intro ids
  induction ids with
  | nil => intro e he; simp [msApplyLoop] at he
  | cons id rest ih =>
    intro e he
    rw [msApplyLoop] at he
    cases hn : net id <;> rw [hn] at he <;> simp only [] at he
    case error m =>
      cases cof with
      | false =>
        simp only [Bool.false_eq_true, if_false] at he
        simp at he
        exact ⟨m, he.symm⟩
      | true =>
        simp only [if_true] at he
        cases hrec : (msApplyLoop true net rest).1 with
        | ok l => rw [hrec] at he; simp [Except.map] at he
        | error e2 =>
          rw [hrec] at he
          simp [Except.map] at he
          exact he ▸ ih e2 hrec
    case ok r =>
      cases hrec : (msApplyLoop cof net rest).1 with
      | ok l => rw [hrec] at he; simp [Except.map] at he
      | error e2 =>
        rw [hrec] at he
        simp [Except.map] at he
        exact he ▸ ih e2 hrec

/-- C8: the bulk applyConfiguration operation fails immediately with a
ValidationError on an empty target-id list, before issuing any remote
call (the call trace is empty); for every non-empty target list the
check passes: a first call is issued and the empty-list validation
error is never the outcome. -/
theorem applyConfiguration_empty_check (outer inner : Bool)
    (net : Int → Except String Payload) :
    executeMonitoringServerApplyConfiguration outer inner net [] =
      (.error (.nodeOperationError ("At least one monitoring server must be selected")), []) ∧
    ∀ id rest, (∃ t,
      (executeMonitoringServerApplyConfiguration outer inner net (id :: rest)).2 = id :: t) ∧
      (executeMonitoringServerApplyConfiguration outer inner net (id :: rest)).1 ≠
        .error (.nodeOperationError ("At least one monitoring server must be selected")) := by
  constructor
  · rfl
  · intro id rest
    have hne : (id :: rest).isEmpty = false := rfl
    constructor
    · show ∃ t, (msApplyLoop outer net (id :: rest)).2 = id :: t
      rw [msApplyLoop]
      cases hn : net id <;> simp only []
      case ok r => exact ⟨(msApplyLoop outer net rest).2, rfl⟩
      case error m =>
        cases outer with
        | false => exact ⟨[], rfl⟩
        | true => exact ⟨(msApplyLoop true net rest).2, rfl⟩
    · show (msApplyLoop outer net (id :: rest)).1 ≠ _
      intro hcon
      obtain ⟨m, hm⟩ := msApplyLoop_error_api outer net (id :: rest) _ hcon
      simp at hm

/-- Concrete transport for the bulk fan-out example: targets 10 and 30
succeed, target 20 fails. -/
def net20 : Int → Except String Payload := fun id =>
  if id = 20 then .error ("Internal Server Error") else .ok { raw := "ok" }

/-- C8 witness: the empty-list validation outcome and the non-empty
first-call behaviour evaluated on a concrete transport. -/
theorem applyConfiguration_empty_check_witness :
    executeMonitoringServerApplyConfiguration false false net20 [] =
      (.error (.nodeOperationError ("At least one monitoring server must be selected")), []) ∧
    (executeMonitoringServerApplyConfiguration false false net20 [10]).1 ≠
      .error (.nodeOperationError ("At least one monitoring server must be selected")) :=
  ⟨(applyConfiguration_empty_check false false net20).1,
   ((applyConfiguration_empty_check false false net20).2 10 []).2⟩

/-- C1: the handler's fan-out behaviour is controlled solely by the
batch-level `this.continueOnFail()` value — the declared per-operation
`continueOnFail` node parameter is never read, so it has no effect.
With the inner parameter enabled but the batch flag disabled, the bulk
apply to [10, 20, 30] with target 20 failing aborts after target 20
(no result, no call for target 30), contradicting the claimed
independent inner flag; with the inner parameter disabled but the
batch flag enabled, it continues and returns 3 per-target results. -/
theorem applyConfiguration_inner_flag_ignored :
    (∀ (outer i1 i2 : Bool) (net : Int → Except String Payload) (ids : List Int),
      executeMonitoringServerApplyConfiguration outer i1 net ids =
        executeMonitoringServerApplyConfiguration outer i2 net ids) ∧
    executeMonitoringServerApplyConfiguration false true net20 [10, 20, 30] =
      (.error (.nodeApiError ("Internal Server Error")), [10, 20]) ∧
    executeMonitoringServerApplyConfiguration true false net20 [10, 20, 30] =
      (.ok [.success 10 { raw := "ok" }, .failure 20 ("Internal Server Error"),
        .success 30 { raw := "ok" }], [10, 20, 30]) := by
  refine ⟨fun outer i1 i2 net ids => rfl, ?_, ?_⟩ <;> rfl

/-- A handler-outcome record with the same outcome for every
(resource, operation) pair. -/
def constHandlers (r : Except CentreonError Payload) : Handlers :=
  { hostList := r, hostAdd := r, hostDelete := r, hostAck := r, hostDowntime := r,
    serviceList := r, serviceAdd := r, serviceDelete := r, serviceAck := r,
    serviceDowntime := r, monitoringServerList := r, monitoringServerApply := r }

/-- C3: for a batch of 3 items where item 2's handler fails, with the
batch-level continue-on-fail flag disabled `execute` aborts on item 2's
error and returns no items; with the flag enabled it returns 3 results
in input order: success, an error record carrying the failure message,
success. -/
theorem execute_batch_continue_vs_abort (run : Nat → Handlers)
    (e : CentreonError) (d0 d2 : Payload)
    (h0 : (run 0).hostList = .ok d0)
    (h1 : (run 1).hostList = .error e)
    (h2 : (run 2).hostList = .ok d2) :
    executeItems false run [("host", "list"), ("host", "list"), ("host", "list")] 0 =
      .error e ∧
    executeItems true run [("host", "list"), ("host", "list"), ("host", "list")] 0 =
      .ok [.success d0, .errorRecord e.message, .success d2] := by
  constructor <;>
    simp [executeItems, dispatchResource, executeHostOperation, h0, h1, h2, Except.map]

/-- The concrete item-handler table for the C3 witness: item 1 (the
second item) fails, items 0 and 2 succeed. -/
def run3 : Nat → Handlers := fun i =>
  if i = 1 then constHandlers (.error (.nodeApiError ("boom")))
  else constHandlers (.ok { raw := "r" })

/-- C3 witness: the batch behaviour evaluated on a concrete 3-item
batch whose second item fails. -/
theorem execute_batch_continue_vs_abort_witness :
    executeItems false run3 [("host", "list"), ("host", "list"), ("host", "list")] 0 =
      .error (.nodeApiError ("boom")) ∧
    executeItems true run3 [("host", "list"), ("host", "list"), ("host", "list")] 0 =
      .ok [.success { raw := "r" }, .errorRecord ("boom"), .success { raw := "r" }] :=
  execute_batch_continue_vs_abort run3 (.nodeApiError ("boom"))
    { raw := "r" } { raw := "r" } rfl rfl rfl

/-- C6 (amended): for each of the three known resources, an operation
outside its catalog (host and service: list/add/delete/ack/downtime;
monitoring server: list/applyConfiguration) fails with an
OperationError naming the unrecognized operation; a resource outside
the three known ones, however, is silently skipped — the dispatcher
yields no result and raises no error. -/
theorem dispatch_unknown_operation (h : Handlers) (resource operation : String) :
    (operation ∉ (["list", "add", "delete", "ack", "downtime"] : List String) →
      dispatchResource h ("host") operation =
        .error (.nodeOperationError ("Unknown operation: " ++ operation)) ∧
      dispatchResource h ("service") operation =
        .error (.nodeOperationError ("Unknown operation: " ++ operation))) ∧
    (operation ∉ (["list", "applyConfiguration"] : List String) →
      dispatchResource h ("monitoringServer") operation =
        .error (.nodeOperationError ("Unknown operation: " ++ operation))) ∧
    (resource ∉ (["host", "service", "monitoringServer"] : List String) →
      dispatchResource h resource operation = .ok none) := by
  refine ⟨?_, ?_, ?_⟩
  · intro hmem
    simp only [List.mem_cons, List.not_mem_nil, or_false, not_or] at hmem
    obtain ⟨n1, n2, n3, n4, n5⟩ := hmem
    constructor <;>
      simp [dispatchResource, executeHostOperation, executeServiceOperation,
        n1, n2, n3, n4, n5, Except.map]
  · intro hmem
    simp only [List.mem_cons, List.not_mem_nil, or_false, not_or] at hmem
    obtain ⟨n1, n2⟩ := hmem
    simp [dispatchResource, executeMonitoringServerOperation, n1, n2, Except.map]
  · intro hmem
    simp only [List.mem_cons, List.not_mem_nil, or_false, not_or] at hmem
    obtain ⟨m1, m2, m3⟩ := hmem
    simp [dispatchResource, m1, m2, m3]

/-- A concrete handler record for the C6 witness and counterexample. -/
def trivialHandlers : Handlers := constHandlers (.ok { raw := "r" })

/-- C6 witness: a known resource with an out-of-catalog operation fails
with the OperationError naming it; an unknown resource with an
in-catalog operation is silently skipped. -/
theorem dispatch_unknown_operation_witness :
    dispatchResource trivialHandlers ("host") ("frobnicate") =
      .error (.nodeOperationError ("Unknown operation: " ++ "frobnicate")) ∧
    dispatchResource trivialHandlers ("pollerGroup") ("list") = .ok none :=
  ⟨((dispatch_unknown_operation trivialHandlers ("pollerGroup") ("frobnicate")).1
      (by decide)).1,
   (dispatch_unknown_operation trivialHandlers ("pollerGroup") ("list")).2.2
      (by decide)⟩

/-- C6 counterexample: the pair (resource "widget", operation "list")
is outside the operation catalog, yet dispatching it does not fail with
an OperationError — it produces no result and no error at all. -/
theorem dispatch_unknown_resource_no_error :
    dispatchResource trivialHandlers ("widget") ("list") = .ok none ∧
    ("widget" : String) ∉ (["host", "service", "monitoringServer"] : List String) := by
  exact ⟨rfl, by decide⟩

/-- When the date-range validation passes, the downtime handler can
never produce a `NodeOperationError`: the remaining failure modes are
the untyped `toIsoUtc` runtime error and the wrapped transport error. -/
theorem executeHostDowntime_no_operation_error (parse : String → Option Int)
    (format : Int → String) (net : RequestRec → Except String Payload)
    (p : DowntimeParams)
    (hv : validateDateRange parse p.startTime p.endTime = .ok ()) (m : String) :
    (executeHostDowntime parse format net p).1 ≠
      .error (.nodeOperationError m) := by
  unfold executeHostDowntime
  rw [hv]
  simp only []
  unfold toIsoUtc
  cases hp1 : parse (utcCandidate p.startTime) <;> simp only []
  case none => simp
  case some t1 =>
    cases hp2 : parse (utcCandidate p.endTime) <;> simp only []
    case none => simp
    case some t2 =>
      cases hn : net _ <;> simp only [] <;> simp

/-- C5: `validateDateRange(start, end)` fails with a ValidationError if
and only if the parsed start is not strictly earlier than the parsed
end, and the check runs before any remote call of the downtime
operation: when it fails, the handler returns the validation error
having issued no request. -/
theorem validateDateRange_iff (parse : String → Option Int) (format : Int → String)
    (net : RequestRec → Except String Payload) (p : DowntimeParams) (a b : Int)
    (ha : parse p.startTime = some a) (hb : parse p.endTime = some b) :
    (validateDateRange parse p.startTime p.endTime =
      .error (.nodeOperationError ("Start time must be before end time")) ↔ b ≤ a) ∧
    (b ≤ a → executeHostDowntime parse format net p =
      (.error (.nodeOperationError ("Start time must be before end time")), [])) := by
  have hv : jsGE (parse p.startTime) (parse p.endTime) = decide (b ≤ a) := by
    rw [ha, hb]; rfl
  constructor
  · unfold validateDateRange
    rw [hv]
    by_cases hba : b ≤ a <;> simp [hba]
  · intro hba
    unfold executeHostDowntime validateDateRange
    rw [hv]
    simp [hba]

/-- A concrete model of the platform date parser at the spec's example
inputs (local wall-clock millisecond timestamps; only the relative
order matters). -/
def dateTable : String → Option Int := fun s =>
  if s = "2024-01-01 10:00:00" then some 1704103200000
  else if s = "2024-01-01 09:00:00" then some 1704099600000
  else none

/-- A degenerate formatter model: the C5/C10 witnesses never reach a
formatting step whose output matters. -/
def isoFormat0 : Int → String := fun _ => ""

/-- A transport model that accepts every request. -/
def netOk : RequestRec → Except String Payload := fun _ => .ok { raw := "ok" }

/-- The spec's failing downtime example: start 10:00:00, end 09:00:00
on the same day. -/
def downtimeP : DowntimeParams :=
  { hostId := 1, comment := "maintenance", fixed := true, duration := 3600,
    withservices := false, startTime := "2024-01-01 10:00:00",
    endTime := "2024-01-01 09:00:00" }

/-- C5 witness: on the spec's example (start 10:00, end 09:00) the
validation fails with the ValidationError and no request is issued. -/
theorem validateDateRange_iff_witness :
    validateDateRange dateTable ("2024-01-01 10:00:00") ("2024-01-01 09:00:00") =
      .error (.nodeOperationError ("Start time must be before end time")) ∧
    executeHostDowntime dateTable isoFormat0 netOk downtimeP =
      (.error (.nodeOperationError ("Start time must be before end time")), []) :=
  ⟨(validateDateRange_iff dateTable isoFormat0 netOk downtimeP
      1704103200000 1704099600000 rfl rfl).1.2 (by decide),
   (validateDateRange_iff dateTable isoFormat0 netOk downtimeP
      1704103200000 1704099600000 rfl rfl).2 (by decide)⟩

/-- C10: when at least one of the two date strings is unparseable (a
`NaN` timestamp), the JavaScript comparison is false, so
`validateDateRange` does not throw, and the downtime handler is never
rejected by the date-range validation. -/
theorem validateDateRange_nan_passes (parse : String → Option Int)
    (format : Int → String) (net : RequestRec → Except String Payload)
    (p : DowntimeParams)
    (h : parse p.startTime = none ∨ parse p.endTime = none) :
    validateDateRange parse p.startTime p.endTime = .ok () ∧
    (executeHostDowntime parse format net p).1 ≠
      .error (.nodeOperationError ("Start time must be before end time")) := by
  have hg : jsGE (parse p.startTime) (parse p.endTime) = false := by
    rcases h with h | h
    · rw [h]; cases parse p.endTime <;> rfl
    · rw [h]; cases parse p.startTime <;> rfl
  have hv : validateDateRange parse p.startTime p.endTime = .ok () := by
    unfold validateDateRange
    rw [hg]
    simp
  exact ⟨hv, executeHostDowntime_no_operation_error parse format net p hv _⟩

/-- The C10 witness downtime parameters: an unparseable start time. -/
def downtimeGarbage : DowntimeParams :=
  { hostId := 1, comment := "maintenance", fixed := true, duration := 3600,
    withservices := false, startTime := "not a date",
    endTime := "2024-01-01 09:00:00" }

/-- C10 witness: a downtime request whose start time does not parse
passes the validation step. -/
theorem validateDateRange_nan_passes_witness :
    validateDateRange dateTable ("not a date") ("2024-01-01 09:00:00") = .ok () ∧
    (executeHostDowntime dateTable isoFormat0 netOk downtimeGarbage).1 ≠
      .error (.nodeOperationError ("Start time must be before end time")) :=
  validateDateRange_nan_passes dateTable isoFormat0 netOk downtimeGarbage
    (Or.inl rfl)

/-- Stripping the millisecond group undoes its insertion: on a string
built from a body, a dot, three zero digits and `Z`, `stripMillis`
returns the body followed by `Z`. -/
theorem stripMillis_mk (l : List Char) :
    stripMillis (String.mk (l ++ ['.', '0', '0', '0', 'Z'])) = String.mk (l ++ ['Z']) := by
  unfold stripMillis
  have hrev : (String.mk (l ++ ['.', '0', '0', '0', 'Z'])).data.reverse =
      'Z' :: '0' :: '0' :: '0' :: '.' :: l.reverse := by
    show (l ++ ['.', '0', '0', '0', 'Z']).reverse = _
    simp
  rw [hrev]
  simp
  exact fun h => absurd h (by decide)

/-- Lemma: `stripMillis` undoes `withMillis` on every string ending in `Z`. -/
theorem stripMillis_withMillis (x : String) :
    stripMillis (withMillis (x ++ "Z")) = x ++ "Z" := by
  obtain ⟨l⟩ := x
  have h1 : (String.mk l ++ ("Z" : String)) = String.mk (l ++ ['Z']) := rfl
  rw [h1]
  unfold withMillis
  rw [show (String.mk (l ++ ['Z'])).data = l ++ ['Z'] from rfl, List.dropLast_concat]
  have h2 : String.mk l ++ (".000Z" : String) =
      String.mk (l ++ ['.', '0', '0', '0', 'Z']) := rfl
  rw [h2, stripMillis_mk]

/-- C9: `toIsoUtc` is partial at its public interface. For every input
of the `YYYY-MM-DD hh:mm:ss` shape that the platform `Date` parses as
the instant `t` and formats back canonically (the `Date.parse` /
`toISOString` round-trip contract at that input), the function returns
the corresponding `YYYY-MM-DDThh:mm:ssZ` string (the input with its
space turned into `T` and `Z` appended). For any input already ending
in the timezone designator `Z`, appending another `Z` yields a string
the platform no longer parses, and the function throws the untyped
runtime error of `toISOString` on an invalid date — not a
`NodeOperationError`. -/
theorem toIsoUtc_conversion (parse : String → Option Int) (format : Int → String) :
    (∀ s t, shapeOk s.data = true → parse (utcCandidate s) = some t →
      format t = withMillis (utcCandidate s) →
      toIsoUtc parse format s = .ok (utcCandidate s)) ∧
    (∀ u, endsWithZ u = true → parse (utcCandidate u) = none →
      toIsoUtc parse format u = .error (.jsError ("Invalid time value")) ∧
      ∀ m, toIsoUtc parse format u ≠ .error (.nodeOperationError m)) := by
  constructor
  · intro s t _hshape hp hf
    unfold toIsoUtc
    rw [hp]
    simp only []
    rw [hf]
    rw [show utcCandidate s = spaceToT s ++ ("Z" : String) from rfl]
    rw [stripMillis_withMillis]
  · intro u _hz hp
    unfold toIsoUtc
    rw [hp]
    exact ⟨rfl, fun m hcon => by simp at hcon⟩

/-- A concrete model of the platform date parser at the C9 witness
instant: only the canonical ISO form of 2024-01-01T10:00:00 UTC
parses. -/
def parseIsoTable : String → Option Int := fun s =>
  if s = "2024-01-01T10:00:00Z" then some 1704103200000 else none

/-- A concrete model of `Date.prototype.toISOString` at the C9 witness
instant. -/
def formatIsoTable : Int → String := fun t =>
  if t = 1704103200000 then "2024-01-01T10:00:00.000Z" else ""

/-- C9 witness: on the concrete platform model, a well-shaped local
string converts to its UTC form, while a string already carrying `Z`
raises the untyped runtime error. -/
theorem toIsoUtc_conversion_witness :
    toIsoUtc parseIsoTable formatIsoTable ("2024-01-01 10:00:00") =
      .ok (utcCandidate ("2024-01-01 10:00:00")) ∧
    toIsoUtc parseIsoTable formatIsoTable ("2024-01-01T10:00:00Z") =
      .error (.jsError ("Invalid time value")) :=
  ⟨(toIsoUtc_conversion parseIsoTable formatIsoTable).1 ("2024-01-01 10:00:00")
      1704103200000 (by decide) (by decide) (by decide),
   ((toIsoUtc_conversion parseIsoTable formatIsoTable).2 ("2024-01-01T10:00:00Z")
      (by decide) (by decide)).1⟩

/-- Characterization of ceiling division: `ceilDiv T L ≤ p` exactly
when `p` pages of `L` records cover `T` records. -/
theorem ceilDiv_le_iff (T L p : Nat) (hL : 1 ≤ L) : ceilDiv T L ≤ p ↔ T ≤ p * L := by
  unfold ceilDiv
  rw [Nat.div_le_iff_le_mul_add_pred hL]
  have h : L * p = p * L := Nat.mul_comm L p
  omega

/-- The fetch loop on a uniform paginated server: starting from any
page `p` reachable by the loop, with enough fuel, it performs exactly
`max 1 (ceilDiv T L) + 1 - p` further fetches and accumulates exactly
the `T - (p-1)*L` records still missing. -/
theorem fetchLoop_uniform (server : Nat → PageResponse) (T L : Nat) (hL : 1 ≤ L)
    (hmeta : ∀ q, (server q).meta = some { total := T, page := q, limit := L })
    (hlen : ∀ q, (server q).result.length = min L (T - (q - 1) * L)) :
    ∀ fuel p acc fetches, 1 ≤ p → ((p - 1) * L < T ∨ p = 1) →
      max 1 (ceilDiv T L) + 1 - p ≤ fuel →
      ∃ items, fetchLoop server fuel p acc fetches =
          some (items, fetches + (max 1 (ceilDiv T L) + 1 - p)) ∧
        items.length = acc.length + (T - (p - 1) * L) := by
  intro fuel
  induction fuel with
  | zero =>
    intro p acc fetches hp hstart hfuel
    exfalso
    rcases hstart with hlt | hp1
    · have h1 : ¬ (ceilDiv T L ≤ p - 1) :=
        fun hc => absurd ((ceilDiv_le_iff T L (p - 1) hL).1 hc) (by omega)
      omega
    · omega
  | succ f ih =>
    intro p acc fetches hp hstart hfuel
    obtain ⟨q, rfl⟩ : ∃ q, p = q + 1 := ⟨p - 1, by omega⟩
    have hmul : q * L + L = (q + 1) * L := (Nat.succ_mul q L).symm
    rw [fetchLoop]
    rw [hmeta (q + 1)]
    simp only [Nat.add_sub_cancel] at hstart hlen ⊢
    by_cases hstop : T ≤ (q + 1) * L
    · rw [if_pos hstop]
      have hc1 : ceilDiv T L ≤ q + 1 := (ceilDiv_le_iff T L (q + 1) hL).2 hstop
      have hstep : max 1 (ceilDiv T L) + 1 - (q + 1) = 1 := by
        rcases hstart with hlt | h1
        · have h2 : ¬ (ceilDiv T L ≤ q) :=
            fun hc => absurd ((ceilDiv_le_iff T L q hL).1 hc) (by omega)
          omega
        · omega
      refine ⟨acc ++ (server (q + 1)).result, ?_, ?_⟩
      · rw [hstep]
      · rw [List.length_append, hlen (q + 1)]
        simp only [Nat.add_sub_cancel]
        omega
    · rw [if_neg hstop]
      have h2 : ¬ (ceilDiv T L ≤ q + 1) :=
        fun hc => absurd ((ceilDiv_le_iff T L (q + 1) hL).1 hc) (by omega)
      obtain ⟨items, heq, hilen⟩ := ih (q + 1 + 1) (acc ++ (server (q + 1)).result)
        (fetches + 1) (by omega) (by left; simp; omega) (by omega)
      refine ⟨items, ?_, ?_⟩
      · rw [heq]
        simp only [Option.some.injEq, Prod.mk.injEq]
        exact ⟨by trivial, by omega⟩
      · rw [hilen, List.length_append, hlen (q + 1)]
        simp only [Nat.add_sub_cancel]
        omega

/-- C2 (amended): on every endpoint whose responses carry pagination
metadata with total `T` and limit `L ≥ 1` (and consistent per-page
record counts), the Options Loader's fetch loop performs exactly
`max 1 (ceil(T/L))` fetches — one fetch even when `T = 0`, since the
loop always fetches before testing its stop condition — and returns
exactly `T` label/value records, terminating via the stop condition
"metadata absent or page*limit >= total" with the page counter
incremented between fetches. -/
theorem fetchFromCentreon_pagination (server : Nat → PageResponse) (T L fuel : Nat)
    (hL : 1 ≤ L)
    (hmeta : ∀ q, (server q).meta = some { total := T, page := q, limit := L })
    (hlen : ∀ q, (server q).result.length = min L (T - (q - 1) * L))
    (hfuel : max 1 (ceilDiv T L) ≤ fuel) :
    (fetchFromCentreon server fuel).map (fun r => r.2) =
      some (max 1 (ceilDiv T L)) ∧
    (fetchFromCentreon server fuel).map (fun r => r.1.length) = some T := by
  obtain ⟨items, heq, hilen⟩ := fetchLoop_uniform server T L hL hmeta hlen fuel 1 [] 0
    (by omega) (Or.inr rfl) (by omega)
  have hz : (0 : Nat) + (max 1 (ceilDiv T L) + 1 - 1) = max 1 (ceilDiv T L) := by omega
  rw [hz] at heq
  have hT : items.length = T := by
    rw [hilen]; simp
  unfold fetchFromCentreon
  rw [heq]
  constructor
  · rfl
  · simp [hT]

/-- A server whose listing is empty: total 0 with limit 100. -/
def emptyServer : Nat → PageResponse := fun q =>
  { result := [], meta := some { total := 0, page := q, limit := 100 } }

/-- C2 counterexample: on a server reporting total `T = 0` with limit
`L = 100`, the loop performs 1 fetch (the loop body always runs once
before the stop condition is tested), but `ceil(T/L) = 0`, so the
claimed fetch count `ceil(T/L)` is wrong at `T = 0`. -/
theorem fetchFromCentreon_total_zero :
    fetchFromCentreon emptyServer 5 = some ([], 1) ∧ ceilDiv 0 100 = 0 := by
  exact ⟨rfl, rfl⟩

/-- A uniform server with 5 records at limit 2: pages of 2, 2 and 1
records. -/
def pagedServer : Nat → PageResponse := fun q =>
  { result := List.replicate (min 2 (5 - (q - 1) * 2)) { id := 7, name := "h" },
    meta := some { total := 5, page := q, limit := 2 } }

/-- C2 witness: on the concrete 5-record, limit-2 server the loop
performs `max 1 (ceil(5/2)) = 3` fetches and returns 5 records. -/
theorem fetchFromCentreon_pagination_witness :
    (fetchFromCentreon pagedServer 3).map (fun r => r.2) =
      some (max 1 (ceilDiv 5 2)) ∧
    (fetchFromCentreon pagedServer 3).map (fun r => r.1.length) = some 5 :=
  fetchFromCentreon_pagination pagedServer 5 2 3 (by omega)
    (fun q => rfl) (fun q => by simp [pagedServer]) (by decide)

/-- Digit characters produced by the encoder are decimal digits. -/
theorem digitChar_isDigit (k : Nat) (hk : k < 10) : isDigitChar (digitChar k) = true := by
  have h : ∀ m, m < 10 → isDigitChar (digitChar m) = true := by decide
  exact h k hk

/-- Lemma: `digitVal` inverts `digitChar` on digits. -/
theorem digitVal_digitChar (k : Nat) (hk : k < 10) : digitVal (digitChar k) = k := by
  have h : ∀ m, m < 10 → digitVal (digitChar m) = m := by decide
  exact h k hk

/-- Every character of a rendered natural number is a decimal digit. -/
theorem natCharsRev_digits (n : Nat) : ∀ c ∈ natCharsRev n, isDigitChar c = true := by
  induction n using Nat.strong_induction_on with
  | _ n ih =>
    rw [natCharsRev]
    split
    next h =>
      intro c hc
      simp at hc
      subst hc
      exact digitChar_isDigit n h
    next h =>
      intro c hc
      rcases List.mem_cons.1 hc with rfl | hc2
      · exact digitChar_isDigit (n % 10) (Nat.mod_lt _ (by omega))
      · exact ih (n / 10) (Nat.div_lt_self (by omega) (by omega)) c hc2

/-- Folding one more digit onto a big-endian digit string. -/
theorem parseNatChars_append (l : List Char) (c : Char) :
    parseNatChars (l ++ [c]) = parseNatChars l * 10 + digitVal c := by
  simp [parseNatChars, List.foldl_append]

/-- The decimal parser inverts the decimal renderer on naturals. -/
theorem parseNat_natChars (n : Nat) : parseNatChars (natChars n) = n := by
  induction n using Nat.strong_induction_on with
  | _ n ih =>
    unfold natChars
    rw [natCharsRev]
    split
    next h =>
      show parseNatChars [digitChar n] = n
      show 0 * 10 + digitVal (digitChar n) = n
      rw [digitVal_digitChar n h]
      omega
    next h =>
      rw [List.reverse_cons, parseNatChars_append]
      have ihq := ih (n / 10) (Nat.div_lt_self (by omega) (by omega))
      unfold natChars at ihq
      rw [ihq, digitVal_digitChar (n % 10) (Nat.mod_lt _ (by omega))]
      omega

/-- On digit-only strings the signed parser agrees with the unsigned
parser. -/
theorem parseIntChars_digits (cs : List Char)
    (h : ∀ c ∈ cs, isDigitChar c = true) :
    parseIntChars cs = (parseNatChars cs : Int) := by
  cases cs with
  | nil => rfl
  | cons c rest =>
    have hc := h c (by simp)
    have hne : c ≠ '-' := by
      intro he
      subst he
      exact absurd hc (by decide)
    unfold parseIntChars
    split
    next rest2 heq =>
      simp at heq
      exact absurd heq.1 hne
    next => rfl

/-- The signed parser inverts the signed renderer on integers. -/
theorem parseInt_intChars (i : Int) : parseIntChars (intChars i) = i := by
  unfold intChars
  split
  next h =>
    show parseIntChars ('-' :: natChars i.natAbs) = i
    show -(parseNatChars (natChars i.natAbs) : Int) = i
    rw [parseNat_natChars]
    omega
  next h =>
    rw [parseIntChars_digits (natChars i.natAbs)
      (fun c hc => natCharsRev_digits i.natAbs c (List.mem_reverse.1 hc))]
    rw [parseNat_natChars]
    omega

/-- Lemma: `takeWhile` splits a concatenation exactly at the first character
failing the predicate. -/
theorem takeWhile_append_stop (p : Char → Bool) (l : List Char) (x : Char)
    (r : List Char) (hl : ∀ c ∈ l, p c = true) (hx : p x = false) :
    (l ++ x :: r).takeWhile p = l := by
  induction l with
  | nil => simp [List.takeWhile_cons, hx]
  | cons a t ih =>
    have ha := hl a (by simp)
    simp [List.takeWhile_cons, ha, ih (fun c hc => hl c (by simp [hc]))]

/-- Decoding a string assembled from the fixed JSON skeleton around
arbitrary comma-free and brace-free number bodies recovers the parsed
bodies. -/
theorem decodeServiceValue_concat (H S : List Char)
    (hH : ∀ c ∈ H, ((c ≠ ',') : Bool) = true)
    (hS : ∀ c ∈ S, ((c ≠ '\x7d') : Bool) = true) :
    decodeServiceValue (String.mk (("\x7b\"hostId\":").data ++ (H ++
      ((",\"serviceId\":").data ++ (S ++ ("\x7d").data))))) =
      some (parseIntChars H, parseIntChars S) := by
  have h1 : (("\x7b\"hostId\":").data ++ (H ++
      ((",\"serviceId\":").data ++ (S ++ ("\x7d").data)))).take 10 =
      ("\x7b\"hostId\":").data := by
    rw [show (10 : Nat) = ("\x7b\"hostId\":").data.length from rfl]
    exact List.take_left ..
  have h2 : (("\x7b\"hostId\":").data ++ (H ++
      ((",\"serviceId\":").data ++ (S ++ ("\x7d").data)))).drop 10 =
      H ++ ((",\"serviceId\":").data ++ (S ++ ("\x7d").data)) := by
    rw [show (10 : Nat) = ("\x7b\"hostId\":").data.length from rfl]
    exact List.drop_left ..
  have h3 : (H ++ ((",\"serviceId\":").data ++ (S ++ ("\x7d").data))).takeWhile
      (fun c => c ≠ ',') = H := by
    rw [show (",\"serviceId\":").data ++ (S ++ ("\x7d").data) =
      ',' :: (("\"serviceId\":").data ++ (S ++ ("\x7d").data)) from rfl]
    exact takeWhile_append_stop _ H ',' _ hH (by decide)
  have h4 : (H ++ ((",\"serviceId\":").data ++ (S ++ ("\x7d").data))).drop
      H.length = (",\"serviceId\":").data ++ (S ++ ("\x7d").data) :=
    List.drop_left ..
  have h5 : ((",\"serviceId\":").data ++ (S ++ ("\x7d").data)).take 13 =
      (",\"serviceId\":").data := by
    rw [show (13 : Nat) = (",\"serviceId\":").data.length from rfl]
    exact List.take_left ..
  have h6 : ((",\"serviceId\":").data ++ (S ++ ("\x7d").data)).drop 13 =
      S ++ ("\x7d").data := by
    rw [show (13 : Nat) = (",\"serviceId\":").data.length from rfl]
    exact List.drop_left ..
  have h7 : (S ++ ("\x7d").data).takeWhile (fun c => c ≠ '\x7d') = S := by
    rw [show ("\x7d").data = '\x7d' :: [] from rfl]
    exact takeWhile_append_stop _ S '\x7d' [] hS (by decide)
  have h8 : (S ++ ("\x7d").data).drop S.length = ("\x7d").data :=
    List.drop_left ..
  unfold decodeServiceValue
  simp only [h1, h2, h3, h4, h5, h6, h7, h8, if_pos rfl, if_true]

/-- Characters of a rendered integer are a minus sign or digits, hence
never a comma. -/
theorem intChars_ne_comma (i : Int) : ∀ c ∈ intChars i, ((c ≠ ',') : Bool) = true := by
  intro c hc
  unfold intChars at hc
  have hdig : ∀ d, isDigitChar d = true → ((d ≠ ',') : Bool) = true := by
    intro d hd
    rcases Decidable.em (d = ',') with rfl | hne
    · exact absurd hd (by decide)
    · simpa using hne
  split at hc
  · rcases List.mem_cons.1 hc with rfl | hc2
    · decide
    · exact hdig c (natCharsRev_digits i.natAbs c (List.mem_reverse.1 hc2))
  · exact hdig c (natCharsRev_digits i.natAbs c (List.mem_reverse.1 hc))

/-- Characters of a rendered integer are never a closing brace. -/
theorem intChars_ne_brace (i : Int) : ∀ c ∈ intChars i, ((c ≠ '\x7d') : Bool) = true := by
  intro c hc
  unfold intChars at hc
  have hdig : ∀ d, isDigitChar d = true → ((d ≠ '\x7d') : Bool) = true := by
    intro d hd
    rcases Decidable.em (d = '\x7d') with rfl | hne
    · exact absurd hd (by decide)
    · simpa using hne
  split at hc
  · rcases List.mem_cons.1 hc with rfl | hc2
    · decide
    · exact hdig c (natCharsRev_digits i.natAbs c (List.mem_reverse.1 hc2))
  · exact hdig c (natCharsRev_digits i.natAbs c (List.mem_reverse.1 hc))

/-- C4: the Identifier Codec round-trips — for every integer pair
(h, s), decoding the JSON-serialized single-string value produced by
the service options loader yields the original pair:
decode(encode(h, s)) = (h, s). -/
theorem decode_encode_service (h s : Int) :
    decodeServiceValue (encodeServiceValue h s) = some (h, s) := by
  have hassoc : encodeServiceValue h s =
      String.mk (("\x7b\"hostId\":").data ++ (intChars h ++
        ((",\"serviceId\":").data ++ (intChars s ++ ("\x7d").data)))) := by
    unfold encodeServiceValue
    rw [List.append_assoc, List.append_assoc, List.append_assoc]
  rw [hassoc,
    decodeServiceValue_concat (intChars h) (intChars s)
      (intChars_ne_comma h) (intChars_ne_brace s),
    parseInt_intChars, parseInt_intChars]

end CentreonNode
